import Mathlib

/-!
Verification of the hardhat_gui repository against its natural-language
specification. The pure fragments of the React component in src/src/App.jsx
are embedded as Lean functions over explicit state. The Tauri backend
commands are not part of the repository snapshot under src, so where a claim
depends on backend behaviour the backend is modelled from the specification,
with a doc comment saying so.
-/

namespace HardhatGui

/-- ToolchainStatus record with the five fields built by checkHardhatStatus
in App.jsx lines 444 to 450 and rendered by the management panel. -/
structure ToolchainStatus where
  installed : Bool
  version : Option String
  project_detected : Bool
  project_path : Option String
  network_running : Bool
deriving DecidableEq

/-- Shape of one bridge invocation: the invoke command name together with
the keys of the argument object passed from App.jsx. -/
structure BridgeCall where
  cmd : String
  argKeys : List String
deriving DecidableEq

/-- The ten invoke call shapes found in App.jsx, one per backend command:
check_hardhat_status at line 455, install_hardhat at 520,
create_hardhat_project at 582, start_hardhat_network at 623,
list_contracts at 679, compile_contracts at 698, run_tests at 739,
deploy_contracts at 768, run_hardhat_console_command at 1354 and
run_hardhat_task at 1521 and 1574. -/
def frontendBridgeCalls : List BridgeCall :=
  [⟨"check_hardhat_status", ["projectPath"]⟩,
   ⟨"install_hardhat", []⟩,
   ⟨"create_hardhat_project", ["projectPath"]⟩,
   ⟨"start_hardhat_network", ["projectPath"]⟩,
   ⟨"list_contracts", ["projectPath"]⟩,
   ⟨"compile_contracts", ["projectPath"]⟩,
   ⟨"run_tests", ["projectPath"]⟩,
   ⟨"deploy_contracts", ["projectPath"]⟩,
   ⟨"run_hardhat_console_command", ["projectPath", "command"]⟩,
   ⟨"run_hardhat_task", ["projectPath", "task", "args"]⟩]

/-- Abstract input kinds of the command table in section 6 of the spec. -/
inductive SpecInput
  | projectPathIn
  | optionalProjectPathIn
  | sourceTextIn
  | taskNameIn
  | argumentListIn
deriving DecidableEq

/-- Modelled from the spec: the request and response bridge table of
section 6, one entry per command, paired with the concrete invoke names the
claim assigns to each row. The Rust side of the bridge is not under src. -/
def specBridgeTable : List (String × List SpecInput) :=
  [("check_hardhat_status", [SpecInput.optionalProjectPathIn]),
   ("install_hardhat", []),
   ("create_hardhat_project", [SpecInput.projectPathIn]),
   ("start_hardhat_network", [SpecInput.projectPathIn]),
   ("list_contracts", [SpecInput.projectPathIn]),
   ("compile_contracts", [SpecInput.projectPathIn]),
   ("run_tests", [SpecInput.projectPathIn]),
   ("deploy_contracts", [SpecInput.projectPathIn]),
   ("run_hardhat_console_command",
     [SpecInput.projectPathIn, SpecInput.sourceTextIn]),
   ("run_hardhat_task",
     [SpecInput.projectPathIn, SpecInput.taskNameIn, SpecInput.argumentListIn])]

/-- Argument key under which App.jsx passes each abstract input kind. -/
def specInputKey : SpecInput → String
  | SpecInput.projectPathIn => "projectPath"
  | SpecInput.optionalProjectPathIn => "projectPath"
  | SpecInput.sourceTextIn => "command"
  | SpecInput.taskNameIn => "task"
  | SpecInput.argumentListIn => "args"

/-- Contract list entry as consumed by renderContracts in App.jsx lines
1190 to 1208: the code reads contract.name, contract.compiled,
contract.path and contract.size. -/
structure Contract where
  name : String
  path : String
  compiled : Bool
  size : Option Nat
deriving DecidableEq

/-- Field keys of the contract record actually read by renderContracts. -/
def contractRecordFields : List String :=
  ["name", "path", "compiled", "size"]

/-- Modelled from the spec: field keys the data model section assigns to
ArtifactInfo, for comparison with the record the code consumes. -/
def specArtifactInfoFields : List String :=
  ["name", "source_path", "compiled", "size_bytes"]

/-- React component state of HardhatApp relevant to status and paths. -/
structure AppState where
  hardhatStatus : Option ToolchainStatus
  currentProjectPath : String
  selectedProjectPath : String
  errorMessage : Option String
deriving DecidableEq

/-- The fixed RPC endpoint string appearing in App.jsx. -/
def defaultRpcEndpoint : String := "http://localhost:8545"

/-- The provider URLs passed to the ethers JsonRpcProvider constructor at
its two construction sites, App.jsx lines 35 and 477, in source order. -/
def rpcProviderEndpoints : List String :=
  ["http://localhost:8545", "http://localhost:8545"]

/-- Endpoint used by loadBlockchainData as a function of the component
state: the URL is a string literal in the source, so the result does not
depend on the state at all. -/
def loadBlockchainDataEndpoint (_s : AppState) : String := defaultRpcEndpoint

/-- Fallback status object built at App.jsx lines 444 to 450 when the
Tauri bridge is unavailable. -/
def fallbackStatus : ToolchainStatus :=
  { installed := false, version := none, project_detected := false,
    project_path := none, network_running := false }

/-- JavaScript truthiness of an optional string: null and the empty string
are falsy, every other string is truthy. -/
def jsTruthyStr : Option String → Bool
  | some q => decide (q ≠ "")
  | none => false

/-- Result of one checkHardhatStatus call: the returned value, the updated
component state, and the backend invocations issued, each recorded as the
command name with the projectPath argument passed. -/
structure CheckResult where
  ret : Option ToolchainStatus
  st : AppState
  calls : List (String × Option String)
deriving DecidableEq

/-- checkHardhatStatus from App.jsx lines 442 to 470. When the code is not
running inside Tauri or the invoke API has not loaded, it sets the fallback
status and returns null without invoking the backend. Otherwise it invokes
check_hardhat_status; on success it stores the status and, when the status
reports a detected project with a truthy path, syncs both tracked paths; on
failure it records an error message and returns null. -/
def checkHardhatStatus (isTauri invokeLoaded : Bool)
    (backend : Except String ToolchainStatus)
    (s : AppState) (projectPath : Option String) : CheckResult :=
  if !(isTauri && invokeLoaded) then
    ⟨none, { s with hardhatStatus := some fallbackStatus }, []⟩
  else
    match backend with
    | Except.ok status =>
        ⟨some status,
         if status.project_detected && jsTruthyStr status.project_path then
           { s with hardhatStatus := some status,
                    currentProjectPath := status.project_path.getD "",
                    selectedProjectPath := status.project_path.getD "" }
         else { s with hardhatStatus := some status },
         [("check_hardhat_status", projectPath)]⟩
    | Except.error e =>
        ⟨none,
         { s with errorMessage := some ("Failed to check Hardhat status: " ++ e) },
         [("check_hardhat_status", projectPath)]⟩

/-- A one-shot bridge call with its command name, the projectPath argument
value, and any further argument values in order. -/
structure Call where
  cmd : String
  projectPath : String
  extra : List String
deriving DecidableEq

/-- handleCompileContracts from App.jsx lines 691 to 730: guarded on a
truthy current project path and an available bridge, then invokes
compile_contracts with the tracked current path. -/
def handleCompileContracts (s : AppState) (isTauri invokeLoaded : Bool) :
    Option Call :=
  if s.currentProjectPath = "" ∨ isTauri = false ∨ invokeLoaded = false then
    none
  else some ⟨"compile_contracts", s.currentProjectPath, []⟩

/-- handleRunTests from App.jsx lines 732 to 759: same guard, invokes
run_tests with the tracked current path. -/
def handleRunTests (s : AppState) (isTauri invokeLoaded : Bool) :
    Option Call :=
  if s.currentProjectPath = "" ∨ isTauri = false ∨ invokeLoaded = false then
    none
  else some ⟨"run_tests", s.currentProjectPath, []⟩

/-- handleDeployContracts from App.jsx lines 761 to 788: same guard,
invokes deploy_contracts with the tracked current path. -/
def handleDeployContracts (s : AppState) (isTauri invokeLoaded : Bool) :
    Option Call :=
  if s.currentProjectPath = "" ∨ isTauri = false ∨ invokeLoaded = false then
    none
  else some ⟨"deploy_contracts", s.currentProjectPath, []⟩

/-- JavaScript whitespace characters handled by the trim model. -/
def isJsWhitespace (c : Char) : Bool :=
  c == ' ' || c == '\t' || c == '\n' || c == '\r'

/-- Model of the JavaScript string trim method over the character list. -/
def jsTrim (s : String) : String :=
  String.mk
    (((s.data.dropWhile isJsWhitespace).reverse.dropWhile
        isJsWhitespace).reverse)

/-- Splitting a character list at commas, keeping empty groups, modelling
the JavaScript split method with a comma separator. -/
def splitOnCommaChars : List Char → List (List Char)
  | [] => [[]]
  | c :: rest =>
    match splitOnCommaChars rest with
    | [] => if c == ',' then [[], []] else [[c]]
    | g :: gs => if c == ',' then [] :: g :: gs else (c :: g) :: gs

/-- Model of the JavaScript split method with a comma separator. -/
def splitOnComma (s : String) : List String :=
  (splitOnCommaChars s.data).map (fun cs => String.mk cs)

/-- The constructor argument pipeline of handleVerifyContract, App.jsx
lines 1563 to 1567: split on commas, trim each piece, discard empties. -/
def splitArgsJs (s : String) : List String :=
  ((splitOnComma s).map jsTrim).filter (fun a => decide (0 < a.length))

/-- handleConsoleCommand from App.jsx lines 1345 to 1362: guarded on a
nonempty trimmed input, a truthy current project path and an available
bridge; invokes run_hardhat_console_command with the current path and the
trimmed source text. -/
def handleConsoleCommand (s : AppState) (isTauri invokeLoaded : Bool)
    (consoleInput : String) : Option Call :=
  if jsTrim consoleInput = "" ∨ s.currentProjectPath = "" ∨
      isTauri = false ∨ invokeLoaded = false then none
  else
    some ⟨"run_hardhat_console_command", s.currentProjectPath,
          [jsTrim consoleInput]⟩

/-- A run_hardhat_task invocation with its project path, task name and
argument list, as passed at App.jsx lines 1521 and 1574. -/
structure TaskCall where
  projectPath : String
  task : String
  args : List String
deriving DecidableEq

/-- handleHardhatTask from App.jsx lines 1511 to 1538. Returns the
run_hardhat_task invocation issued, if any, together with whether the
verification modal was opened instead: the verify task is redirected to
the modal and produces no direct invocation; every other task is invoked
with the tracked current path and an empty argument list. -/
def handleHardhatTask (s : AppState) (isTauri invokeLoaded : Bool)
    (taskName : String) : Option TaskCall × Bool :=
  if s.currentProjectPath = "" ∨ isTauri = false ∨ invokeLoaded = false then
    (none, false)
  else if taskName = "verify" then (none, true)
  else (some ⟨s.currentProjectPath, taskName, []⟩, false)

/-- Verification modal form state, App.jsx lines 419 to 423. -/
structure VerifyForm where
  contractAddress : String
  constructorArgs : String
  contractName : String
deriving DecidableEq

/-- Optional contract name flag pair pushed at App.jsx lines 1557 to 1559
when the contract name field is truthy. -/
def contractNameArgs (f : VerifyForm) : List String :=
  if f.contractName ≠ "" then ["--contract", f.contractName] else []

/-- Optional constructor argument block pushed at App.jsx lines 1562 to
1572: only when the raw field is truthy and at least one nonempty piece
remains after splitting, trimming and filtering. -/
def constructorArgsList (f : VerifyForm) : List String :=
  if f.constructorArgs ≠ "" then
    if 0 < (splitArgsJs f.constructorArgs).length then
      "--constructor-args" :: splitArgsJs f.constructorArgs
    else []
  else []

/-- Full verify argument list built by handleVerifyContract: the contract
address first, then the optional contract name pair, then the optional
constructor argument block. -/
def verifyArgs (f : VerifyForm) : List String :=
  f.contractAddress :: (contractNameArgs f ++ constructorArgsList f)

/-- handleVerifyContract from App.jsx lines 1540 to 1599: guarded on a
truthy current project path, an available invoke API and a truthy contract
address field; invokes run_hardhat_task with task verify and the built
argument list. -/
def handleVerifyContract (s : AppState) (invokeLoaded : Bool)
    (f : VerifyForm) : Option TaskCall :=
  if s.currentProjectPath = "" ∨ invokeLoaded = false ∨
      f.contractAddress = "" then none
  else some ⟨s.currentProjectPath, "verify", verifyArgs f⟩

/-- Auto refresh component state, App.jsx lines 414 and 415. -/
structure RefreshState where
  autoRefresh : Bool
  refreshIntervalId : Option Nat
deriving DecidableEq

/-- The only callback the presentation layer schedules periodically. -/
inductive RefreshCallback
  | handleRefreshCb
deriving DecidableEq

/-- Browser timer registry owned by the presentation runtime: a fresh id
counter and the active intervals as id, callback and period tuples. -/
structure Timers where
  nextId : Nat
  active : List (Nat × RefreshCallback × Nat)
deriving DecidableEq

/-- Model of window.setInterval: registers the callback with its period
under a fresh id and returns the id. -/
def setIntervalT (t : Timers) (cb : RefreshCallback) (ms : Nat) :
    Nat × Timers :=
  (t.nextId, ⟨t.nextId + 1, (t.nextId, cb, ms) :: t.active⟩)

/-- Model of window.clearInterval: removes the interval with the given id. -/
def clearIntervalT (t : Timers) (id : Nat) : Timers :=
  ⟨t.nextId, t.active.filter (fun en => decide (en.1 ≠ id))⟩

/-- toggleAutoRefresh from App.jsx lines 657 to 671: when auto refresh is
active, clears the stored interval and resets the state; otherwise starts
a ten second interval running handleRefresh and stores its id. -/
def toggleAutoRefresh (s : RefreshState) (t : Timers) :
    RefreshState × Timers :=
  if s.autoRefresh then
    (⟨false, none⟩,
     match s.refreshIntervalId with
     | some id => clearIntervalT t id
     | none => t)
  else
    ((fun idt => (⟨true, some idt.1⟩, idt.2))
      (setIntervalT t RefreshCallback.handleRefreshCb 10000))

/-- Unmount cleanup effect from App.jsx lines 791 to 797: clears the
stored interval if one is active. -/
def unmountCleanup (s : RefreshState) (t : Timers) : Timers :=
  match s.refreshIntervalId with
  | some id => clearIntervalT t id
  | none => t

/-- Bridge command issued by each scheduled callback: handleRefresh, App.jsx
lines 649 to 655, performs the pull based status call. -/
def callbackBridgeCommand : RefreshCallback → String
  | RefreshCallback.handleRefreshCb => "check_hardhat_status"

/-- Modelled from the spec: the filesystem and network state the probes of
section 4.1 read, standing in for the Rust backend that is not under src. -/
structure Env where
  files : List String
  binaryVersion : Option String
  networkUp : Bool
deriving DecidableEq

/-- The two recognized configuration filenames, in probe order, per the
spec and the embedded README section on project detection. -/
def configFilenames : List String :=
  ["hardhat.config.js", "hardhat.config.ts"]

/-- File existence over the modelled filesystem. -/
def fileExists (e : Env) (p : String) : Bool :=
  e.files.any (fun q => decide (q = p))

/-- Modelled from the spec: the default path probe_project uses when no
path is given. -/
def defaultProjectPath : String := "."

/-- Modelled from the spec: the first configuration filename, in order,
that exists at the base path, or none. -/
def probe_project_match (e : Env) (base : String) : Option String :=
  configFilenames.find? (fun c => fileExists e (base ++ "/" ++ c))

/-- Project probe result: detection flag and resolved path. -/
structure ProbeResult where
  detected : Bool
  resolved_path : Option String
deriving DecidableEq

/-- Modelled from the spec: probe_project of section 4.1, checking the two
recognized configuration filenames in order at the given path, or at the
default path when none is given; first match wins; no match yields a
detected false result and never an error. -/
def probe_project (e : Env) (path : Option String) : ProbeResult :=
  if (probe_project_match e (path.getD defaultProjectPath)).isSome then
    ⟨true, some (path.getD defaultProjectPath)⟩
  else ⟨false, none⟩

/-- Modelled from the spec: probe_installation of section 4.1, reporting
whether the toolchain binary resolves and its version. -/
def probe_installation (e : Env) : Bool × Option String :=
  match e.binaryVersion with
  | some v => (true, some v)
  | none => (false, none)

/-- Modelled from the spec: check_status combines the three probes into a
ToolchainStatus, recomputed from the environment on every call. -/
def check_status (e : Env) (path : Option String) : ToolchainStatus :=
  { installed := (probe_installation e).1,
    version := (probe_installation e).2,
    project_detected := (probe_project e path).detected,
    project_path := (probe_project e path).resolved_path,
    network_running := e.networkUp }

/-- A sequence of probe calls against a changing environment: the status
returned by each call in turn. -/
def statusTrace (envs : List Env) (path : Option String) :
    List ToolchainStatus :=
  envs.map (fun e => check_status e path)

/-- Lifecycle states of the managed process, per section 4.2 of the spec. -/
inductive ProcState
  | Starting
  | Running
  | Stopping
  | Stopped
  | Crashed
deriving DecidableEq

/-- Modelled from the spec: the ManagedProcess record of the data model. -/
structure ManagedProcess where
  project_path : String
  pid : Nat
  started_at : Nat
  output_buffer : List String
  state : ProcState
deriving DecidableEq

/-- Modelled from the spec: the Process Lifecycle Manager registry, keyed
by project path, with a pid counter and a count of processes spawned. -/
structure Manager where
  procs : String → Option ManagedProcess
  nextPid : Nat
  spawned : Nat

/-- A process counts as live in the Starting and Running states. -/
def isLive : ProcState → Bool
  | ProcState.Starting => true
  | ProcState.Running => true
  | _ => false

/-- Modelled from the spec: spawning the long-running network process for
a path, recording pid and start time and transitioning to Starting. -/
def spawnFor (m : Manager) (p : String) (now : Nat) :
    ManagedProcess × Manager :=
  (⟨p, m.nextPid, now, [], ProcState.Starting⟩,
   ⟨fun q =>
      if q = p then some ⟨p, m.nextPid, now, [], ProcState.Starting⟩
      else m.procs q,
    m.nextPid + 1, m.spawned + 1⟩)

/-- Modelled from the spec: start of section 4.2. If a ManagedProcess
already exists for the path in a live state, returns the existing state
without spawning; otherwise spawns a fresh process. -/
def start (m : Manager) (p : String) (now : Nat) :
    ManagedProcess × Manager :=
  match m.procs p with
  | some mp => if isLive mp.state then (mp, m) else spawnFor m p now
  | none => spawnFor m p now

/-- Concrete verify form used as a witness input. -/
def fW : VerifyForm :=
  { contractAddress := "0xabc", constructorArgs := " 1, ,2 ",
    contractName := "" }

/-- Concrete component state used as a witness input. -/
def sVW : AppState :=
  { hardhatStatus := none, currentProjectPath := "/proj",
    selectedProjectPath := "/proj", errorMessage := none }

/-- The task call handleVerifyContract produces on the witness inputs. -/
def vcW : TaskCall :=
  { projectPath := "/proj", task := "verify",
    args := ["0xabc", "--constructor-args", "1", "2"] }

/-- Concrete component state used as a witness input for the bridge
unavailable case. -/
def sW : AppState :=
  { hardhatStatus := none, currentProjectPath := "",
    selectedProjectPath := "", errorMessage := none }

/-- Component state with a previously tracked path, used to exhibit the
empty-string path edge case. -/
def s0bad : AppState :=
  { hardhatStatus := none, currentProjectPath := "/old",
    selectedProjectPath := "/sel", errorMessage := none }

/-- Status with a detected project whose returned path is the empty
string: non-null but falsy in JavaScript. -/
def stEmpty : ToolchainStatus :=
  { installed := true, version := none, project_detected := true,
    project_path := some "", network_running := false }

/-- Status with a detected project and a nonempty path, used as a witness
input. -/
def stGood : ToolchainStatus :=
  { installed := true, version := some "2.22.0", project_detected := true,
    project_path := some "/proj", network_running := true }

/-- Concrete environment with only the TypeScript configuration file. -/
def eTs : Env :=
  { files := ["/p/hardhat.config.ts"], binaryVersion := none,
    networkUp := false }

/-- Concrete refresh state used as a witness input. -/
def sR0 : RefreshState := { autoRefresh := false, refreshIntervalId := none }

/-- Concrete timer registry used as a witness input. -/
def tm0 : Timers :=
  { nextId := 4, active := [(2, RefreshCallback.handleRefreshCb, 10000)] }

/- ## Helper lemmas -/

theorem str_ne_empty_of_pos (a : String) (h : 0 < a.length) : a ≠ "" := by
  intro he
  subst he
  exact absurd h (by decide)

theorem splitArgsJs_pos (s a : String) (ha : a ∈ splitArgsJs s) :
    0 < a.length := by
  unfold splitArgsJs at ha
  exact of_decide_eq_true (List.mem_filter.mp ha).2

theorem contractNameArgs_ne_empty (f : VerifyForm) :
    "" ∉ contractNameArgs f := by
  unfold contractNameArgs
  split_ifs with h
  · intro hmem
    rcases List.mem_cons.mp hmem with h1 | h2
    · exact absurd h1 (by decide)
    · rcases List.mem_cons.mp h2 with h3 | h4
      · exact h h3.symm
      · simp at h4
  · simp

theorem constructorArgsList_ne_empty (f : VerifyForm) :
    "" ∉ constructorArgsList f := by
  unfold constructorArgsList
  split_ifs with h1 h2
  · intro hmem
    rcases List.mem_cons.mp hmem with h3 | h4
    · exact absurd h3 (by decide)
    · exact absurd (splitArgsJs_pos _ _ h4) (by decide)
  · simp
  · simp

theorem constructorArgsList_eq_nil (f : VerifyForm)
    (h : splitArgsJs f.constructorArgs = []) :
    constructorArgsList f = [] := by
  unfold constructorArgsList
  split_ifs with h1 h2
  · rw [h] at h2
    simp at h2
  · rfl
  · rfl

theorem verifyArgs_ne_empty (f : VerifyForm)
    (h : f.contractAddress ≠ "") : "" ∉ verifyArgs f := by
  unfold verifyArgs
  intro hmem
  rcases List.mem_cons.mp hmem with h1 | h2
  · exact h h1.symm
  · rcases List.mem_append.mp h2 with h3 | h4
    · exact contractNameArgs_ne_empty f h3
    · exact constructorArgsList_ne_empty f h4

theorem spawnFor_procs_self (m : Manager) (p : String) (t : Nat) :
    (spawnFor m p t).2.procs p = some (spawnFor m p t).1 := by
  simp [spawnFor]

theorem spawnFor_state (m : Manager) (p : String) (t : Nat) :
    (spawnFor m p t).1.state = ProcState.Starting := rfl

theorem start_of_live (m : Manager) (p : String) (t : Nat)
    (mp : ManagedProcess) (h : m.procs p = some mp)
    (hl : isLive mp.state = true) : start m p t = (mp, m) := by
  unfold start
  rw [h]
  simp [hl]

/- ## Claim theorems -/

/-- C1: the bridge exposes exactly one call per command name of the table
in section 6 of the spec, and the presentation layer invokes each by name
with the listed input: the invoke call shapes in App.jsx coincide with the
spec table rendered through the argument key map, and the command names
are pairwise distinct. -/
theorem bridge_one_call_per_command :
    frontendBridgeCalls
      = specBridgeTable.map (fun en => ⟨en.1, en.2.map specInputKey⟩)
    ∧ (frontendBridgeCalls.map BridgeCall.cmd).Nodup
    ∧ frontendBridgeCalls.length = 10 := by
  refine ⟨by decide, by decide, by decide⟩

/-- C2: every ToolchainStatus consists of exactly the five fields
installed, version, project_detected, project_path and network_running,
and check_status derives its result fresh on each probe call: the status
equals the combination of the probes applied to the environment of that
very call, and a trace of calls over changing environments recomputes each
entry from the corresponding environment alone. -/
theorem status_five_fields_and_fresh :
    (∀ s : ToolchainStatus,
      s = ⟨s.installed, s.version, s.project_detected, s.project_path,
           s.network_running⟩)
    ∧ (∀ (e : Env) (p : Option String),
        check_status e p =
          ⟨(probe_installation e).1, (probe_installation e).2,
           (probe_project e p).detected, (probe_project e p).resolved_path,
           e.networkUp⟩)
    ∧ (∀ (envs : List Env) (p : Option String) (i : Nat),
        (statusTrace envs p)[i]? = (envs[i]?).map
          (fun e => check_status e p)) := by
  refine ⟨?_, ?_, ?_⟩
  · intro s
    cases s
    rfl
  · intro e p
    rfl
  · intro envs p i
    simp [statusTrace]

/-- C3 counterexample: the record consumed by renderContracts does not
carry fields named source_path or size_bytes; the actual keys are path and
size, so the field list differs from the one the claim states. -/
theorem artifact_fields_counterexample :
    "source_path" ∉ contractRecordFields
    ∧ "size_bytes" ∉ contractRecordFields
    ∧ "path" ∈ contractRecordFields
    ∧ "size" ∈ contractRecordFields
    ∧ contractRecordFields ≠ specArtifactInfoFields := by
  refine ⟨by decide, by decide, by decide, by decide, by decide⟩

/-- C3 amended: every entry of the contract list is a record with exactly
the fields name, path, compiled and size, in that order. -/
theorem artifact_fields_amended :
    contractRecordFields = ["name", "path", "compiled", "size"]
    ∧ (∀ c : Contract, c = ⟨c.name, c.path, c.compiled, c.size⟩) := by
  refine ⟨rfl, ?_⟩
  intro c
  cases c
  rfl

/-- C4: calling start twice in succession for the same project path
without an intervening stop spawns exactly one live process: after the
first call the registry holds one live process for the path, the second
call returns the very same state and process without spawning, and the
first call increases the spawn count by at most one. -/
theorem start_idempotent_one_process (m : Manager) (p : String)
    (t1 t2 : Nat) :
    (start (start m p t1).2 p t2).1 = (start m p t1).1
    ∧ (start (start m p t1).2 p t2).2 = (start m p t1).2
    ∧ (start m p t1).2.procs p = some (start m p t1).1
    ∧ isLive (start m p t1).1.state = true
    ∧ (start (start m p t1).2 p t2).2.spawned = (start m p t1).2.spawned
    ∧ (start m p t1).2.spawned ≤ m.spawned + 1 := by
  have hfix : (start m p t1).2.procs p = some (start m p t1).1
      ∧ isLive (start m p t1).1.state = true
      ∧ (start m p t1).2.spawned ≤ m.spawned + 1 := by
    rcases h : m.procs p with _ | mp
    · have hs : start m p t1 = spawnFor m p t1 := by
        unfold start
        rw [h]
      rw [hs]
      exact ⟨spawnFor_procs_self m p t1, rfl, by simp [spawnFor]⟩
    · by_cases hl : isLive mp.state = true
      · rw [start_of_live m p t1 mp h hl]
        exact ⟨h, hl, Nat.le_succ _⟩
      · have hs : start m p t1 = spawnFor m p t1 := by
          unfold start
          rw [h]
          simp [hl]
        rw [hs]
        exact ⟨spawnFor_procs_self m p t1, rfl, by simp [spawnFor]⟩
  have hsecond :=
    start_of_live (start m p t1).2 p t2 (start m p t1).1 hfix.1 hfix.2.1
  exact ⟨by rw [hsecond], by rw [hsecond], hfix.1, hfix.2.1,
         by rw [hsecond], hfix.2.2⟩

/-- C5: every JSON RPC provider the frontend constructs uses the single
fixed endpoint, and the endpoint loadBlockchainData uses is a constant
independent of all component state. -/
theorem rpc_endpoint_fixed :
    rpcProviderEndpoints.all (fun u => decide (u = defaultRpcEndpoint))
      = true
    ∧ (∀ s t : AppState,
        loadBlockchainDataEndpoint s = loadBlockchainDataEndpoint t)
    ∧ defaultRpcEndpoint = "http://localhost:8545" := by
  refine ⟨by decide, ?_, rfl⟩
  intro s t
  rfl

/-- C6: probe_project checks, in order, exactly the two recognized
configuration filenames at the given path, the first match wins, the
default path is used when none is given, and when neither file exists the
result is a detected false value with no error. -/
theorem probe_project_two_configs :
    configFilenames = ["hardhat.config.js", "hardhat.config.ts"]
    ∧ (∀ (e : Env) (base : String),
        fileExists e (base ++ "/" ++ "hardhat.config.js") = true →
        probe_project_match e base = some "hardhat.config.js"
        ∧ probe_project e (some base) = ⟨true, some base⟩)
    ∧ (∀ (e : Env) (base : String),
        fileExists e (base ++ "/" ++ "hardhat.config.js") = false →
        fileExists e (base ++ "/" ++ "hardhat.config.ts") = true →
        probe_project_match e base = some "hardhat.config.ts"
        ∧ probe_project e (some base) = ⟨true, some base⟩)
    ∧ (∀ (e : Env) (base : String),
        fileExists e (base ++ "/" ++ "hardhat.config.js") = false →
        fileExists e (base ++ "/" ++ "hardhat.config.ts") = false →
        probe_project e (some base) = ⟨false, none⟩)
    ∧ (∀ e : Env,
        probe_project e none = probe_project e (some defaultProjectPath)) := by
  refine ⟨rfl, ?_, ?_, ?_, ?_⟩
  · intro e base h1
    have hm : probe_project_match e base = some "hardhat.config.js" := by
      unfold probe_project_match configFilenames
      exact List.find?_cons_of_pos _ h1
    exact ⟨hm, by simp [probe_project, hm]⟩
  · intro e base h1 h2
    have hm : probe_project_match e base = some "hardhat.config.ts" := by
      unfold probe_project_match configFilenames
      rw [List.find?_cons_of_neg _ (by simp [h1])]
      exact List.find?_cons_of_pos _ h2
    exact ⟨hm, by simp [probe_project, hm]⟩
  · intro e base h1 h2
    have hm : probe_project_match e base = none := by
      unfold probe_project_match configFilenames
      rw [List.find?_cons_of_neg _ (by simp [h1]),
          List.find?_cons_of_neg _ (by simp [h2])]
      rfl
    simp [probe_project, hm]
  · intro e
    rfl

/-- C6 witness: with only the TypeScript configuration file present the
probe detects the project through the second filename. -/
theorem probe_project_two_configs_witness :
    probe_project_match eTs "/p" = some "hardhat.config.ts"
    ∧ probe_project eTs (some "/p") = ⟨true, some "/p"⟩ :=
  probe_project_two_configs.2.2.1 eTs "/p" (by decide) (by decide)

/-- C7: the periodic refresh lives entirely in the presentation layer:
toggling auto refresh on registers a single ten second interval running the
refresh callback in the browser timer registry and stores its id, toggling
off again removes exactly that interval, the unmount cleanup does the same,
and the scheduled callback issues the pull based status command. -/
theorem auto_refresh_owned_by_presentation (s : RefreshState) (t : Timers)
    (hoff : s.autoRefresh = false)
    (hfresh : t.active.all (fun en => decide (en.1 < t.nextId)) = true) :
    (toggleAutoRefresh s t).1.autoRefresh = true
    ∧ (toggleAutoRefresh s t).1.refreshIntervalId = some t.nextId
    ∧ (toggleAutoRefresh s t).2.active
        = (t.nextId, RefreshCallback.handleRefreshCb, 10000) :: t.active
    ∧ (toggleAutoRefresh (toggleAutoRefresh s t).1
        (toggleAutoRefresh s t).2).2.active = t.active
    ∧ (unmountCleanup (toggleAutoRefresh s t).1
        (toggleAutoRefresh s t).2).active = t.active
    ∧ callbackBridgeCommand RefreshCallback.handleRefreshCb
        = "check_hardhat_status" := by
  have h1 : toggleAutoRefresh s t
      = (⟨true, some t.nextId⟩,
         ⟨t.nextId + 1,
          (t.nextId, RefreshCallback.handleRefreshCb, 10000) :: t.active⟩) := by
    simp [toggleAutoRefresh, hoff, setIntervalT]
  have hfil :
      ((t.nextId, RefreshCallback.handleRefreshCb, 10000)
          :: t.active).filter (fun en => decide (en.1 ≠ t.nextId))
        = t.active := by
    have htail : t.active.filter (fun en => decide (en.1 ≠ t.nextId))
        = t.active := by
      apply List.filter_eq_self.mpr
      intro a ha
      have hlt : a.1 < t.nextId :=
        of_decide_eq_true (List.all_eq_true.mp hfresh a ha)
      exact decide_eq_true (Nat.ne_of_lt hlt)
    rw [List.filter_cons]
    have hhead :
        decide (((t.nextId, RefreshCallback.handleRefreshCb, 10000) :
          Nat × RefreshCallback × Nat).1 ≠ t.nextId) = false := by
      simp
    rw [hhead]
    simpa using htail
  rw [h1]
  refine ⟨rfl, rfl, rfl, ?_, ?_, rfl⟩
  · simpa [toggleAutoRefresh, clearIntervalT] using hfil
  · simpa [unmountCleanup, clearIntervalT] using hfil

/-- C7 witness: concrete refresh state and timer registry exercising the
interval registration and removal. -/
theorem auto_refresh_owned_by_presentation_witness :
    (toggleAutoRefresh sR0 tm0).1.autoRefresh = true
    ∧ (toggleAutoRefresh sR0 tm0).1.refreshIntervalId = some 4
    ∧ (toggleAutoRefresh (toggleAutoRefresh sR0 tm0).1
        (toggleAutoRefresh sR0 tm0).2).2.active = tm0.active := by
  have h := auto_refresh_owned_by_presentation sR0 tm0 (by decide) (by decide)
  exact ⟨h.1, h.2.1, h.2.2.2.1⟩

/-- C8: when the Tauri bridge is unavailable, checkHardhatStatus performs
no backend invocation, returns null, sets the displayed status to exactly
the all false record, and leaves the rest of the state unchanged. -/
theorem check_status_bridge_unavailable (isT inv : Bool)
    (backend : Except String ToolchainStatus) (s : AppState)
    (p : Option String) (h : (isT && inv) = false) :
    (checkHardhatStatus isT inv backend s p).calls = []
    ∧ (checkHardhatStatus isT inv backend s p).ret = none
    ∧ (checkHardhatStatus isT inv backend s p).st.hardhatStatus
        = some ⟨false, none, false, none, false⟩
    ∧ (checkHardhatStatus isT inv backend s p).st.currentProjectPath
        = s.currentProjectPath
    ∧ (checkHardhatStatus isT inv backend s p).st.selectedProjectPath
        = s.selectedProjectPath
    ∧ (checkHardhatStatus isT inv backend s p).st.errorMessage
        = s.errorMessage := by
  simp [checkHardhatStatus, h, fallbackStatus]

/-- C8 witness: concrete non Tauri run of checkHardhatStatus. -/
theorem check_status_bridge_unavailable_witness :
    (checkHardhatStatus false true (Except.error "no tauri") sW none).calls
      = []
    ∧ (checkHardhatStatus false true (Except.error "no tauri") sW none).ret
      = none
    ∧ (checkHardhatStatus false true
        (Except.error "no tauri") sW none).st.hardhatStatus
      = some ⟨false, none, false, none, false⟩ := by
  have h := check_status_bridge_unavailable false true
    (Except.error "no tauri") sW none (by decide)
  exact ⟨h.1, h.2.1, h.2.2.1⟩

/-- C9: run_hardhat_task never receives the verify task through
handleHardhatTask, which redirects verify to the modal; a task invocation
from handleHardhatTask carries an empty argument list; the constructor
argument pipeline is exactly split on commas, trim, discard empties; and
every invocation from handleVerifyContract has task verify, a nonempty
contract address as first argument, and no empty string anywhere in its
argument list, with the constructor args flag present only when the
filtered list is nonempty. -/
theorem verify_task_arguments :
    (∀ (s : AppState) (isT inv : Bool),
        (handleHardhatTask s isT inv "verify").1 = none)
    ∧ (∀ (s : AppState) (isT inv : Bool) (tn : String) (c : TaskCall)
        (b : Bool),
        handleHardhatTask s isT inv tn = (some c, b) →
          tn ≠ "verify" ∧ c.args = [])
    ∧ (∀ str : String,
        splitArgsJs str = ((splitOnComma str).map jsTrim).filter
          (fun a => decide (0 < a.length)))
    ∧ (∀ (s : AppState) (inv : Bool) (f : VerifyForm) (c : TaskCall),
        handleVerifyContract s inv f = some c →
          c.task = "verify" ∧ f.contractAddress ≠ ""
          ∧ c.args.head? = some f.contractAddress
          ∧ "" ∉ c.args
          ∧ (splitArgsJs f.constructorArgs = [] →
              c.args = f.contractAddress :: contractNameArgs f)) := by
  refine ⟨?_, ?_, ?_, ?_⟩
  · intro s isT inv
    unfold handleHardhatTask
    split_ifs with hg hv
    · rfl
    · rfl
    · exact absurd rfl hv
  · intro s isT inv tn c b hc
    unfold handleHardhatTask at hc
    split_ifs at hc with hg hv
    · simp at hc
    · simp at hc
    · rw [Prod.mk.injEq] at hc
      obtain ⟨hc1, hc2⟩ := hc
      injection hc1 with hc1
      subst hc1
      exact ⟨hv, rfl⟩
  · intro str
    rfl
  · intro s inv f c hc
    unfold handleVerifyContract at hc
    split_ifs at hc with hg
    injection hc with hc
    subst hc
    push_neg at hg
    refine ⟨rfl, hg.2.2, rfl, verifyArgs_ne_empty f hg.2.2, ?_⟩
    intro hnil
    simp [verifyArgs, constructorArgsList_eq_nil f hnil]

/-- C9 witness: a concrete verify form with a messy constructor argument
string produces the expected argument list with no empty entries. -/
theorem verify_task_arguments_witness :
    vcW.task = "verify" ∧ fW.contractAddress ≠ ""
    ∧ vcW.args.head? = some fW.contractAddress
    ∧ "" ∉ vcW.args := by
  have h := verify_task_arguments.2.2.2 sVW true fW vcW (by decide)
  exact ⟨h.1, h.2.1, h.2.2.1, h.2.2.2.1⟩

/-- C10 counterexample: a check_hardhat_status result with project_detected
true and a non null project_path that is the empty string does not update
the tracked current path, because the code tests JavaScript truthiness and
the empty string is falsy; so the claim as stated fails. -/
theorem path_sync_counterexample :
    (checkHardhatStatus true true (Except.ok stEmpty) s0bad none).ret
      = some stEmpty
    ∧ stEmpty.project_detected = true
    ∧ stEmpty.project_path = some ""
    ∧ (checkHardhatStatus true true
        (Except.ok stEmpty) s0bad none).st.currentProjectPath = "/old"
    ∧ (checkHardhatStatus true true
        (Except.ok stEmpty) s0bad none).st.selectedProjectPath = "/sel"
    ∧ ("/old" : String) ≠ "" := by
  refine ⟨by decide, by decide, by decide, by decide, by decide, by decide⟩

/-- C10 amended: after every check_hardhat_status call whose result has
project_detected true and a non null, nonempty project_path, both tracked
paths are updated to the returned path; and the compile, test, deploy,
task and console handlers all pass the tracked current path as the
projectPath argument of their invocation. -/
theorem path_sync_and_threading :
    (∀ (isT inv : Bool) (backend : Except String ToolchainStatus)
        (s : AppState) (p : Option String) (st : ToolchainStatus)
        (q : String),
        (checkHardhatStatus isT inv backend s p).ret = some st →
        st.project_detected = true → st.project_path = some q → q ≠ "" →
        (checkHardhatStatus isT inv backend s p).st.currentProjectPath = q
        ∧ (checkHardhatStatus isT inv backend s p).st.selectedProjectPath
            = q)
    ∧ (∀ (s : AppState) (isT inv : Bool) (c : Call),
        handleCompileContracts s isT inv = some c →
          c.cmd = "compile_contracts"
          ∧ c.projectPath = s.currentProjectPath)
    ∧ (∀ (s : AppState) (isT inv : Bool) (c : Call),
        handleRunTests s isT inv = some c →
          c.cmd = "run_tests" ∧ c.projectPath = s.currentProjectPath)
    ∧ (∀ (s : AppState) (isT inv : Bool) (c : Call),
        handleDeployContracts s isT inv = some c →
          c.cmd = "deploy_contracts"
          ∧ c.projectPath = s.currentProjectPath)
    ∧ (∀ (s : AppState) (isT inv : Bool) (tn : String) (c : TaskCall)
        (b : Bool),
        handleHardhatTask s isT inv tn = (some c, b) →
          c.projectPath = s.currentProjectPath)
    ∧ (∀ (s : AppState) (inv : Bool) (f : VerifyForm) (c : TaskCall),
        handleVerifyContract s inv f = some c →
          c.projectPath = s.currentProjectPath)
    ∧ (∀ (s : AppState) (isT inv : Bool) (inp : String) (c : Call),
        handleConsoleCommand s isT inv inp = some c →
          c.cmd = "run_hardhat_console_command"
          ∧ c.projectPath = s.currentProjectPath) := by
  refine ⟨?_, ?_, ?_, ?_, ?_, ?_, ?_⟩
  · intro isT inv backend s p st q hret hdet hpath hq
    cases hb : (isT && inv) with
    | false => simp [checkHardhatStatus, hb] at hret
    | true =>
        rcases backend with e | st2
        · simp [checkHardhatStatus, hb] at hret
        · have hst : st2 = st := by
            simpa [checkHardhatStatus, hb] using hret
          subst hst
          have hqb : decide (q ≠ "") = true := decide_eq_true hq
          constructor <;>
            simp [checkHardhatStatus, hb, hdet, hpath, jsTruthyStr, hqb]
  · intro s isT inv c hc
    unfold handleCompileContracts at hc
    split_ifs at hc
    injection hc with hc
    subst hc
    exact ⟨rfl, rfl⟩
  · intro s isT inv c hc
    unfold handleRunTests at hc
    split_ifs at hc
    injection hc with hc
    subst hc
    exact ⟨rfl, rfl⟩
  · intro s isT inv c hc
    unfold handleDeployContracts at hc
    split_ifs at hc
    injection hc with hc
    subst hc
    exact ⟨rfl, rfl⟩
  · intro s isT inv tn c b hc
    unfold handleHardhatTask at hc
    split_ifs at hc with hg hv
    · simp at hc
    · simp at hc
    · rw [Prod.mk.injEq] at hc
      obtain ⟨hc1, hc2⟩ := hc
      injection hc1 with hc1
      subst hc1
      rfl
  · intro s inv f c hc
    unfold handleVerifyContract at hc
    split_ifs at hc
    injection hc with hc
    subst hc
    rfl
  · intro s isT inv inp c hc
    unfold handleConsoleCommand at hc
    split_ifs at hc
    injection hc with hc
    subst hc
    exact ⟨rfl, rfl⟩

/-- C10 witness: a successful status call with a detected project at a
nonempty path updates both tracked paths to that path. -/
theorem path_sync_and_threading_witness :
    (checkHardhatStatus true true
      (Except.ok stGood) sW none).st.currentProjectPath = "/proj"
    ∧ (checkHardhatStatus true true
        (Except.ok stGood) sW none).st.selectedProjectPath = "/proj" := by
  have h := path_sync_and_threading.1 true true (Except.ok stGood) sW none
    stGood "/proj" (by decide) (by decide) (by decide) (by decide)
  exact h

end HardhatGui
